import Mathlib

set_option maxHeartbeats 1000000

/- Verification development for src/mvast_fmri_task.py (M-VAST fMRI visual
task).  The Python program is shallowly embedded: wall-clock time is modelled
with rationals, pygame events and surfaces with small inductive types, and
each polling loop of the source is modelled as a function over an explicit
finite trace of clock readings and event batches (one entry per loop
iteration).  Every definition follows the corresponding source function
line by line; deviations forced by the embedding are noted in comments. -/

/- Model of pygame key codes: only K_SPACE and K_ESCAPE are inspected by the
source, every other key is opaque. -/
inductive Key where
  | space
  | escape
  | other (code : Nat)
deriving DecidableEq, Repr

/- Model of pygame events as consumed by the source: pygame.QUIT and
pygame.KEYDOWN with its key code and its unicode string (possibly empty). -/
inductive PyEvent where
  | quit
  | keydown (k : Key) (unicode : String)
deriving DecidableEq, Repr

inductive StartOutcome where
  | started
  | cancelled
deriving DecidableEq, Repr

/- Python str.lower restricted to the characters that occur in the program. -/
def lowerStr (s : String) : String := String.mk (s.toList.map Char.toLower)

/- One step of the event loop of wait_for_start (mvast_fmri_task.py lines
633-647): sequential checks on a single pygame event.  The mode string is
already lowercased by the caller, the trigger character is lowercased at each
comparison exactly as in the source. -/
def processEvent (mode tc : String) (ec : Bool) : PyEvent → Option StartOutcome
  | PyEvent.quit => some StartOutcome.cancelled
  | PyEvent.keydown k u =>
    if k = Key.space ∧ (mode = "manual" ∨ mode = "both") then some StartOutcome.started
    else if (mode = "trigger" ∨ mode = "both") ∧ u ≠ "" ∧ lowerStr u = lowerStr tc then
      some StartOutcome.started
    else if ec = true ∧ k = Key.escape then some StartOutcome.cancelled
    else none

/- The for-loop over pygame.event.get(): the first decisive event returns. -/
def processEvents (mode tc : String) (ec : Bool) : List PyEvent → Option StartOutcome
  | [] => none
  | e :: rest =>
    match processEvent mode tc ec e with
    | some o => some o
    | none => processEvents mode tc ec rest

def startModeAllowsTrigger (mode : String) : Bool :=
  decide (mode = "trigger" ∨ mode = "both")

/- The outer while-loop of wait_for_start (lines 631-654).  Each poll is a
pair of the pygame event queue contents and the serial-trigger-pending flag
(trigger_handler.check_trigger()).  A result of none means the trace ended
with the gate still waiting (the real loop blocks forever). -/
def waitLoop (mode tc : String) (ec hh : Bool) : List (List PyEvent × Bool) → Option StartOutcome
  | [] => none
  | (evs, trig) :: rest =>
    match processEvents mode tc ec evs with
    | some o => some o
    | none =>
      if startModeAllowsTrigger mode = true ∧ hh = true ∧ trig = true then
        some StartOutcome.started
      else waitLoop mode tc ec hh rest

/- wait_for_start (lines 565-654): the start mode is lowercased once at
entry; hh models trigger_handler being non-None. -/
def wait_for_start (mode tc : String) (ec hh : Bool)
    (polls : List (List PyEvent × Bool)) : Option StartOutcome :=
  waitLoop (lowerStr mode) tc ec hh polls

/- An event whose unicode matches the trigger character case-insensitively
and non-emptily, i.e. a trigger-character keystroke in the sense of the
spec. -/
def isTriggerKeystroke (tc : String) : PyEvent → Bool
  | PyEvent.keydown _ u => decide (u ≠ "" ∧ lowerStr u = lowerStr tc)
  | _ => false

def isSpaceKeydown : PyEvent → Bool
  | PyEvent.keydown Key.space _ => true
  | _ => false

/- Well-formedness of keyboard events as a physical keyboard produces them:
the space key carries unicode " " and the escape key carries unicode
"\x1b". -/
def wfEvent : PyEvent → Bool
  | PyEvent.keydown Key.space u => decide (u = " ")
  | PyEvent.keydown Key.escape u => decide (u = "\x1b")
  | _ => true

/- Model of a pygame display surface; the embedding only needs its presence
or absence, since the source treats a missing screen as a no-op phase. -/
inductive Screen where
  | mk
deriving DecidableEq, Repr

/- Model of a loaded pygame image surface: either a file decoded from the
given path or one of the two programmatic fallbacks the source renders
(a centered cross for fixation, rendered text for instructions). -/
inductive Image where
  | loaded (path : String)
  | renderedCross (scheme : String)
  | renderedText (scheme : String)
deriving DecidableEq, Repr

/- The event poll shared by the phase loops (show_fixation lines 477-482,
show_instruction_image lines 502-507, show_flashing_checkerboard lines
531-536): pygame.QUIT cancels, KEYDOWN of K_ESCAPE cancels when
escape_cancels is set, all other events are ignored. -/
def hasCancelEvent (ec : Bool) (evs : List PyEvent) : Bool :=
  evs.any fun e =>
    match e with
    | PyEvent.quit => true
    | PyEvent.keydown k _ => ec && decide (k = Key.escape)

/- Result of a static phase: whether the image was blitted and flipped, and
whether the phase completed (True in the source) rather than being
cancelled (False). -/
structure StaticResult where
  presented : Bool
  completed : Bool
deriving DecidableEq, Repr

/- The fixed-duration wait loop of show_fixation / show_instruction_image:
each trace entry is one iteration's monotonic-clock reading and the events
polled in it; the loop exits completed once the reading reaches the end
time.  An exhausted trace models the clock eventually passing the end time. -/
def staticLoop (endTime : ℚ) (ec : Bool) : List (ℚ × List PyEvent) → Bool
  | [] => true
  | (t, evs) :: rest =>
    if t < endTime then
      if hasCancelEvent ec evs then false else staticLoop endTime ec rest
    else true

/- show_fixation (lines 464-486): only the screen is guarded; the image is
blitted once and the loop then waits out the duration. -/
def show_fixation (screen : Option Screen) (fixationImage : Image)
    (duration t0 : ℚ) (trace : List (ℚ × List PyEvent)) (ec : Bool) : StaticResult :=
  if screen.isNone then ⟨false, true⟩
  else ⟨true, staticLoop (t0 + duration) ec trace⟩

/- show_instruction_image (lines 489-511): both the screen and the
instruction image are guarded; note that the blit and flip happen before the
duration loop, so a zero duration still presents the image once. -/
def show_instruction_image (screen : Option Screen) (instructionImage : Option Image)
    (duration t0 : ℚ) (trace : List (ℚ × List PyEvent)) (ec : Bool) : StaticResult :=
  if screen.isNone || instructionImage.isNone then ⟨false, true⟩
  else ⟨true, staticLoop (t0 + duration) ec trace⟩

/- One iteration of the checkerboard loop: the while-condition clock reading
(tCheck), the polled events, and the current_time reading used for the flip
test (tCur); the source reads the clock twice per iteration. -/
structure FlashIter where
  tCheck : ℚ
  events : List PyEvent
  tCur : ℚ
deriving DecidableEq, Repr

/- Result of show_flashing_checkerboard: completion flag (the returned
boolean), frame_count, the chronological list of presented images (true for
img1), the final last_flip_time, and the final value of current_image. -/
structure FlashResult where
  completed : Bool
  frameCount : Nat
  flips : List Bool
  lastFlipTime : ℚ
  currentImage : Bool
deriving DecidableEq, Repr

/- The while-loop of show_flashing_checkerboard (lines 529-553): the loop
runs while tCheck < endTime, a cancel event returns False immediately, and a
flip happens when tCur has reached last_flip_time + frame_duration, after
which the deadline advances additively (last_flip_time += frame_duration). -/
def flashLoop (fd endTime : ℚ) (ec : Bool) :
    List FlashIter → Bool → ℚ → Nat → List Bool → FlashResult
  | [], img, lf, m, fl => ⟨true, m, fl, lf, img⟩
  | it :: rest, img, lf, m, fl =>
    if it.tCheck < endTime then
      if hasCancelEvent ec it.events then ⟨false, m, fl, lf, img⟩
      else if lf + fd ≤ it.tCur then
        flashLoop fd endTime ec rest (!img) (lf + fd) (m + 1) (fl ++ [img])
      else flashLoop fd endTime ec rest img lf m fl
    else ⟨true, m, fl, lf, img⟩

/- show_flashing_checkerboard (lines 514-561): the guard returns True when
the screen or either image is missing; otherwise frame_duration is
1/frequency/2, start_time is t0, current_image starts at True (img1) and
last_flip_time starts at start_time. -/
def show_flashing_checkerboard (screen : Option Screen) (img1 img2 : Option Image)
    (duration frequency : ℚ) (t0 : ℚ) (iters : List FlashIter) (ec : Bool) : FlashResult :=
  if screen.isNone || img1.isNone || img2.isNone then ⟨true, 0, [], t0, true⟩
  else flashLoop (1 / frequency / 2) (t0 + duration) ec iters true t0 0 []

/- The alternating presentation sequence beginning with the given image
(true stands for img1, which current_image selects first). -/
def altList (b : Bool) : Nat → List Bool
  | 0 => []
  | n + 1 => b :: altList (!b) n

/- Bounded per-iteration jitter: starting from previous clock reading p,
every iteration's two clock readings advance by at most half a flip period
each, and the readings are monotone. -/
def wellSpaced (fd : ℚ) : ℚ → List FlashIter → Bool
  | _, [] => true
  | p, it :: rest =>
    decide (p ≤ it.tCheck) && decide (it.tCheck ≤ p + fd / 2) &&
    decide (it.tCheck ≤ it.tCur) && decide (it.tCur ≤ it.tCheck + fd / 2) &&
    wellSpaced fd it.tCur rest

def noCancelIters (ec : Bool) (iters : List FlashIter) : Bool :=
  iters.all fun it => !hasCancelEvent ec it.events

def reachesEnd (endTime : ℚ) (iters : List FlashIter) : Bool :=
  iters.any fun it => decide (endTime ≤ it.tCheck)

/- The nine-iteration trace used to witness the amended C1: a quarter-second
run at 8 Hz polled every 1/32 s, with both clock readings of each iteration
coinciding. -/
def c1WitnessTrace : List FlashIter :=
  [⟨0, [], 0⟩, ⟨1/32, [], 1/32⟩, ⟨2/32, [], 2/32⟩, ⟨3/32, [], 3/32⟩,
   ⟨4/32, [], 4/32⟩, ⟨5/32, [], 5/32⟩, ⟨6/32, [], 6/32⟩, ⟨7/32, [], 7/32⟩,
   ⟨8/32, [], 8/32⟩]

/- Model of the file system seen by the image loaders: whether a path
exists and whether pygame can decode the file at it. -/
structure FS where
  pathExists : String → Bool
  loadable : String → Bool

/- Relevant fields of the configuration dict consumed by run_task. -/
structure Config where
  cb1 : String
  cb2 : String
  fixationImage : Option String
  instructionImage : Option String
  colorScheme : String
  instructionText : Option String
  instructionDuration : ℚ
deriving DecidableEq, Repr

/- Python truthiness of an optional path string: None and "" are falsy. -/
def pathTruthy : Option String → Bool
  | some p => !(p = "")
  | none => false

/- load_fixation_image (lines 234-284): a provided, existing, decodable path
loads; every other case falls through to the programmatically rendered
centered cross for the colour scheme.  The function always returns a
surface. -/
def load_fixation_image (fs : FS) (imagePath : Option String) (colorScheme : String) : Image :=
  match imagePath with
  | some p =>
    if (!(p = "")) && fs.pathExists p && fs.loadable p then Image.loaded p
    else Image.renderedCross colorScheme
  | none => Image.renderedCross colorScheme

/- load_instruction_image (lines 287-372): as load_fixation_image but the
fallback renders the instruction text; the text content does not affect
which surface constructor results, so it is not tracked. -/
def load_instruction_image (fs : FS) (imagePath : Option String) (colorScheme : String)
    (instructionText : Option String) : Image :=
  match imagePath with
  | some p =>
    if (!(p = "")) && fs.pathExists p && fs.loadable p then Image.loaded p
    else Image.renderedText colorScheme
  | none => Image.renderedText colorScheme

/- load_checkerboard_images (lines 375-399): a missing or undecodable file
in the pair raises, the handler prints the error and returns (None, None). -/
def load_checkerboard_images (fs : FS) (img1Path img2Path : String) : Option (Image × Image) :=
  if fs.pathExists img1Path && fs.pathExists img2Path &&
      fs.loadable img1Path && fs.loadable img2Path then
    some (Image.loaded img1Path, Image.loaded img2Path)
  else none

/- Python truthiness of a pygame Surface: always true (Surface defines no
__bool__ or __len__), which is why the "if not fixation_image" check in
run_task can never fire. -/
def surfaceTruthy (img : Image) : Bool :=
  match img with
  | _ => true

inductive PhaseKind where
  | instruction
  | fixation (cycle : Nat)
  | checkerboard (cycle : Nat)
deriving DecidableEq, Repr

/- Outcomes of the blocking calls made by run_task, abstracting the clock
and event traces each phase would consume: the start gate result and, per
phase, whether the phase call returns True (completed).  The cycle index
parameters mirror the loop variable of run_task. -/
structure PhaseOracle where
  gate : Bool
  instructionOk : Bool
  fixationOk : Nat → Bool
  checkerboardOk : Nat → Bool

/- Observable outcome of run_task: whether the fatal-asset error message was
shown, whether wait_for_start was reached, the chronological list of phases
entered, and the boolean run_task returns. -/
structure RunResult where
  errorShown : Bool
  gateReached : Bool
  phases : List PhaseKind
  success : Bool
deriving DecidableEq, Repr

def NUM_CYCLES : Nat := 5

def FIXATION_DURATION : ℚ := 20

def CHECKERBOARD_DURATION : ℚ := 20

def FLASH_FREQUENCY : ℚ := 8

/- The cycle loop of run_task (lines 752-778): for each cycle the fixation
phase runs and, if it completes, the checkerboard phase; a False return from
either aborts the whole task with False. -/
def runCycles (oracle : PhaseOracle) : Nat → Nat → List PhaseKind × Bool
  | _, 0 => ([], true)
  | c, n + 1 =>
    if oracle.fixationOk c = false then ([PhaseKind.fixation c], false)
    else if oracle.checkerboardOk c = false then
      ([PhaseKind.fixation c, PhaseKind.checkerboard c], false)
    else
      let rest := runCycles oracle (c + 1) n
      (PhaseKind.fixation c :: PhaseKind.checkerboard c :: rest.1, rest.2)

/- run_task (lines 658-808): image loading, the fatal checkerboard check,
the (unreachable) fixation check, the timing-parameter check, the start
gate, the instruction phase gated on the instruction image being truthy,
and the five cycles. -/
def run_task (fs : FS) (cfg : Config) (oracle : PhaseOracle) : RunResult :=
  let fixationImage := load_fixation_image fs cfg.fixationImage cfg.colorScheme
  let instructionImage := load_instruction_image fs cfg.instructionImage cfg.colorScheme
    cfg.instructionText
  match load_checkerboard_images fs cfg.cb1 cfg.cb2 with
  | none => ⟨true, false, [], false⟩
  | some _ =>
    if surfaceTruthy fixationImage = false then ⟨true, false, [], false⟩
    else if decide (CHECKERBOARD_DURATION ≤ 0) || decide (FIXATION_DURATION ≤ 0) then
      ⟨true, false, [], false⟩
    else if oracle.gate = false then ⟨false, true, [], false⟩
    else if surfaceTruthy instructionImage = true ∧ oracle.instructionOk = false then
      ⟨false, true, [PhaseKind.instruction], false⟩
    else
      let instrPhases := if surfaceTruthy instructionImage then [PhaseKind.instruction] else []
      let cyc := runCycles oracle 1 NUM_CYCLES
      ⟨false, true, instrPhases ++ cyc.1, cyc.2⟩

/- main (lines 812-869): 1 when the display cannot be initialized, otherwise
0 exactly when run_task returns True. -/
def mainExit (displayOk : Bool) (fs : FS) (cfg : Config) (oracle : PhaseOracle) : Nat :=
  if displayOk = false then 1
  else if (run_task fs cfg oracle).success then 0 else 1

/- The phase list of n complete cycles starting at cycle index c. -/
def cyclesList : Nat → Nat → List PhaseKind
  | _, 0 => []
  | c, n + 1 => PhaseKind.fixation c :: PhaseKind.checkerboard c :: cyclesList (c + 1) n

/- Concrete fixtures shared by several concrete-input theorems. -/
def fsAll : FS := ⟨fun _ => true, fun _ => true⟩

def fsEmpty : FS := ⟨fun _ => false, fun _ => false⟩

def cfgDefault : Config :=
  ⟨"acheck_by.png", "acheck_by_.png", none, none, "blue_yellow", none, 10⟩

def cfgZeroInstr : Config :=
  ⟨"acheck_by.png", "acheck_by_.png", none, none, "blue_yellow", none, 0⟩

def oracleAllOk : PhaseOracle := ⟨true, true, fun _ => true, fun _ => true⟩

def oracleCancelledGate : PhaseOracle := ⟨false, true, fun _ => true, fun _ => true⟩

/- Model of JSON values as produced by json.load.  Arrays and objects only
matter to load_config through their truthiness and through float() raising
on them, so only their emptiness is tracked. -/
inductive JVal where
  | jnull
  | jbool (b : Bool)
  | jnum (q : ℚ)
  | jstr (s : String)
  | jarr (isEmpty : Bool)
  | jobj (isEmpty : Bool)
deriving DecidableEq, Repr

/- Model of a Python float value: finite, one of the infinities, or nan. -/
inductive PFloat where
  | fin (q : ℚ)
  | inf
  | neginf
  | nan
deriving DecidableEq, Repr

/- A value held in the configuration dict: a JSON value as loaded, or a
Python float written back by the instruction_duration validation. -/
inductive PyVal where
  | vjson (j : JVal)
  | vfloat (f : PFloat)
deriving DecidableEq, Repr

def pyTruthy : JVal → Bool
  | JVal.jnull => false
  | JVal.jbool b => b
  | JVal.jnum q => decide (q ≠ 0)
  | JVal.jstr s => !(s = "")
  | JVal.jarr e => !e
  | JVal.jobj e => !e

def pyTruthyPV : PyVal → Bool
  | PyVal.vjson j => pyTruthy j
  | PyVal.vfloat (PFloat.fin q) => decide (q ≠ 0)
  | PyVal.vfloat _ => true

/- The values on which Python str.lower() is defined: exactly the strings.
Any other value makes merged.get(...).lower() raise AttributeError. -/
def asStrPV : PyVal → Option String
  | PyVal.vjson (JVal.jstr s) => some s
  | _ => none

/- Association-list model of a Python dict (keys unique, insertion order
kept): lookup and item assignment. -/
def getA {α : Type} (l : List (String × α)) (k : String) : Option α :=
  match l.find? (fun kv => kv.1 == k) with
  | some kv => some kv.2
  | none => none

def setA {α : Type} : List (String × α) → String → α → List (String × α)
  | [], k, v => [(k, v)]
  | kv :: rest, k, v => if kv.1 == k then (k, v) :: rest else kv :: setA rest k v

/- DEFAULT_CONFIG (lines 44-57). -/
def DEFAULT_CONFIG : List (String × JVal) :=
  [("trigger_character", JVal.jstr ("=")),
   ("start_mode", JVal.jstr ("both")),
   ("color_scheme", JVal.jstr ("blue_yellow")),
   ("use_serial_port", JVal.jbool false),
   ("serial_port", JVal.jnull),
   ("images_dir", JVal.jstr ("images")),
   ("fixation_image", JVal.jnull),
   ("checkerboard_image1", JVal.jnull),
   ("checkerboard_image2", JVal.jnull),
   ("instruction_image", JVal.jnull),
   ("instruction_text", JVal.jnull),
   ("instruction_duration", JVal.jnum 10)]

def DEFAULT_KEYS : List String := DEFAULT_CONFIG.map Prod.fst

/- DEFAULT_CONFIG.copy() followed by merged.update(config): each file field
is assigned in order, later duplicates winning as json.load does. -/
def mergeCfg (fields : List (String × JVal)) : List (String × JVal) :=
  fields.foldl (fun acc kv => setA acc kv.1 kv.2) DEFAULT_CONFIG

/- The contents of the configuration file as load_config sees them:
missing file (defaults created and saved), an unreadable file or JSON whose
top-level value makes merged.update raise (caught, defaults with a warning),
or a successfully loaded mapping of string keys to values.  A top-level JSON
array of string-value pairs, which dict.update also accepts, is covered by
the loaded constructor. -/
inductive ConfigSource where
  | missingFile
  | unreadable
  | loaded (fields : List (String × JVal))
deriving DecidableEq, Repr

def parseNatAux : List Char → Nat → Option Nat
  | [], acc => some acc
  | c :: rest, acc =>
    if c.isDigit then parseNatAux rest (acc * 10 + (c.toNat - 48)) else none

/- Decimal literals accepted by Python float(): digits with at most one
dot and at least one digit.  Exponent notation and underscore separators
are not modelled; such strings map to none, and load_config then substitutes
the default exactly as it does for invalid strings, which leaves every
property proved below unaffected since Python would keep a non-negative
finite value there instead. -/
def parseDec (cs : List Char) : Option ℚ :=
  let intPart := cs.takeWhile (fun c => !(c = '.'))
  let rest := cs.dropWhile (fun c => !(c = '.'))
  match rest with
  | [] =>
    if intPart.isEmpty then none
    else (parseNatAux intPart 0).map (fun n => (n : ℚ))
  | _ :: fracPart =>
    if fracPart.any (fun c => c = '.') then none
    else if intPart.isEmpty && fracPart.isEmpty then none
    else
      match parseNatAux intPart 0, parseNatAux fracPart 0 with
      | some ip, some fp =>
        some ((ip : ℚ) + (fp : ℚ) / ((10 : ℚ) ^ fracPart.length))
      | _, _ => none

/- Python float(str): leading/trailing whitespace stripped, case ignored,
inf/infinity/nan keywords with optional sign, else a decimal literal. -/
def strToPFloat (s : String) : Option PFloat :=
  let t := lowerStr (s.trim)
  if t = "inf" ∨ t = "+inf" ∨ t = "infinity" ∨ t = "+infinity" then some PFloat.inf
  else if t = "-inf" ∨ t = "-infinity" then some PFloat.neginf
  else if t = "nan" ∨ t = "+nan" ∨ t = "-nan" then some PFloat.nan
  else
    match t.toList with
    | '+' :: rest => (parseDec rest).map PFloat.fin
    | '-' :: rest => (parseDec rest).map (fun q => PFloat.fin (-q))
    | rest => (parseDec rest).map PFloat.fin

/- Python float(value) on a dict value: floats pass through, numbers and
booleans convert, strings parse, everything else raises (none). -/
def pyFloat : PyVal → Option PFloat
  | PyVal.vfloat f => some f
  | PyVal.vjson (JVal.jnum q) => some (PFloat.fin q)
  | PyVal.vjson (JVal.jbool b) => some (PFloat.fin (if b then 1 else 0))
  | PyVal.vjson (JVal.jstr s) => strToPFloat s
  | PyVal.vjson _ => none

/- The comparison duration < 0 on Python floats: false for nan and +inf. -/
def pfltLtZero : PFloat → Bool
  | PFloat.fin q => decide (q < 0)
  | PFloat.neginf => true
  | PFloat.inf => false
  | PFloat.nan => false

/- Lines 63-76 of load_config: obtain the merged dict, from the file or the
defaults. -/
def configMerged : ConfigSource → List (String × JVal)
  | ConfigSource.missingFile => DEFAULT_CONFIG
  | ConfigSource.unreadable => DEFAULT_CONFIG
  | ConfigSource.loaded fields => mergeCfg fields

/- Lines 79-85: color_scheme is read with default "blue_yellow" and
lowercased — raising AttributeError (the error outcome) when the stored
value is not a string — then validated against the two schemes, an invalid
value being replaced by "blue_yellow"; a valid value is kept in the dict in
its original case. -/
def applyColorScheme (m : List (String × PyVal)) :
    Except Unit (String × List (String × PyVal)) :=
  match asStrPV ((getA m ("color_scheme")).getD (PyVal.vjson (JVal.jstr ("blue_yellow")))) with
  | none => Except.error ()
  | some csRaw =>
    let cs0 := lowerStr csRaw
    if decide (cs0 = "blue_yellow" ∨ cs0 = "black_white") then Except.ok (cs0, m)
    else Except.ok ("blue_yellow",
      setA m ("color_scheme") (PyVal.vjson (JVal.jstr ("blue_yellow"))))

/- One clause of lines 87-100: if not merged.get(key): merged[key] = dflt. -/
def cbAssign (m : List (String × PyVal)) (key dflt : String) : List (String × PyVal) :=
  if pyTruthyPV ((getA m key).getD (PyVal.vjson JVal.jnull)) then m
  else setA m key (PyVal.vjson (JVal.jstr dflt))

/- Lines 87-100: fill in the checkerboard file names for the validated
scheme when the stored values are falsy. -/
def applyCheckerboardDefaults (cs : String) (m : List (String × PyVal)) :
    List (String × PyVal) :=
  let img1 := if cs = "black_white" then "acheck_bw.png" else "acheck_by.png"
  let img2 := if cs = "black_white" then "acheck_bw_.png" else "acheck_by_.png"
  cbAssign (cbAssign m ("checkerboard_image1") img1) ("checkerboard_image2") img2

/- Lines 103-106: start_mode is read with default "both" and lowercased —
raising when not a string — and an invalid value is replaced by "both"; a
valid value keeps its original case. -/
def applyStartMode (m : List (String × PyVal)) :
    Except Unit (List (String × PyVal)) :=
  match asStrPV ((getA m ("start_mode")).getD (PyVal.vjson (JVal.jstr ("both")))) with
  | none => Except.error ()
  | some smRaw =>
    let sm := lowerStr smRaw
    if decide (sm = "manual" ∨ sm = "trigger" ∨ sm = "both") then Except.ok m
    else Except.ok (setA m ("start_mode") (PyVal.vjson (JVal.jstr ("both"))))

/- Lines 109-118: instruction_duration is converted with float(); a
conversion error or a negative value stores the default 10.0, any other
converted value — including inf and nan — is stored back as a float. -/
def applyDuration (m : List (String × PyVal)) : List (String × PyVal) :=
  match pyFloat ((getA m ("instruction_duration")).getD (PyVal.vjson (JVal.jnum 10))) with
  | none => setA m ("instruction_duration") (PyVal.vfloat (PFloat.fin 10))
  | some f =>
    if pfltLtZero f then setA m ("instruction_duration") (PyVal.vfloat (PFloat.fin 10))
    else setA m ("instruction_duration") (PyVal.vfloat f)

/- load_config (lines 61-120) assembled from the stages above in source
order; the error outcome models the uncaught AttributeError raised on a
non-string color_scheme or start_mode value. -/
def load_config (src : ConfigSource) : Except Unit (List (String × PyVal)) :=
  let m0 : List (String × PyVal) :=
    (configMerged src).map (fun kv => (kv.1, PyVal.vjson kv.2))
  match applyColorScheme m0 with
  | Except.error e => Except.error e
  | Except.ok (cs, m1) =>
    let m2 := applyCheckerboardDefaults cs m1
    match applyStartMode m2 with
    | Except.error e => Except.error e
    | Except.ok m3 => Except.ok (applyDuration m3)

/- Hypotheses of the amended C9 on the merged file contents: a value stored
under the key is a string (or the key is absent), or additionally may be any
falsy value for the checkerboard fields. -/
def strOrMissing (l : List (String × JVal)) (k : String) : Bool :=
  match getA l k with
  | some (JVal.jstr _) => true
  | some _ => false
  | none => true

def strOrFalsy (l : List (String × JVal)) (k : String) : Bool :=
  match getA l k with
  | some (JVal.jstr _) => true
  | some j => !pyTruthy j
  | none => true

def srcOk (src : ConfigSource) : Bool :=
  match src with
  | ConfigSource.loaded fields =>
    strOrMissing (mergeCfg fields) ("color_scheme") &&
    strOrMissing (mergeCfg fields) ("start_mode") &&
    strOrFalsy (mergeCfg fields) ("checkerboard_image1") &&
    strOrFalsy (mergeCfg fields) ("checkerboard_image2")
  | _ => true

/- The post-condition of the implicit claim on load_config results: every
default key present, start_mode and color_scheme valid up to case,
instruction_duration a float not below zero, and non-empty checkerboard
file names. -/
def cfgPost (m : List (String × PyVal)) : Bool :=
  (DEFAULT_KEYS.all (fun k => (getA m k).isSome)) &&
  (match getA m ("start_mode") with
   | some (PyVal.vjson (JVal.jstr s)) =>
     decide (lowerStr s = "manual" ∨ lowerStr s = "trigger" ∨ lowerStr s = "both")
   | _ => false) &&
  (match getA m ("color_scheme") with
   | some (PyVal.vjson (JVal.jstr s)) =>
     decide (lowerStr s = "blue_yellow" ∨ lowerStr s = "black_white")
   | _ => false) &&
  (match getA m ("instruction_duration") with
   | some (PyVal.vfloat f) => !pfltLtZero f
   | _ => false) &&
  (match getA m ("checkerboard_image1") with
   | some (PyVal.vjson (JVal.jstr s)) => !(s = "")
   | _ => false) &&
  (match getA m ("checkerboard_image2") with
   | some (PyVal.vjson (JVal.jstr s)) => !(s = "")
   | _ => false)

/- A checkerboard field value over which load_config is well behaved: a
string, a falsy value, or absent. -/
def cbFieldOk : Option PyVal → Bool
  | some (PyVal.vjson (JVal.jstr _)) => true
  | some (PyVal.vjson j) => !pyTruthy j
  | some (PyVal.vfloat _) => false
  | none => true

lemma processEvents_append_first (mode tc : String) (ec : Bool)
    (evs1 : List PyEvent) (e : PyEvent) (evs2 : List PyEvent) (o : StartOutcome)
    (h1 : ∀ x ∈ evs1, processEvent mode tc ec x = none)
    (h2 : processEvent mode tc ec e = some o) :
    processEvents mode tc ec (evs1 ++ e :: evs2) = some o := by
  induction evs1 with
  | nil => simp [processEvents, h2]
  | cons a as ih =>
    have ha : processEvent mode tc ec a = none := h1 a (by simp)
    simp only [List.cons_append, processEvents, ha]
    exact ih (fun x hx => h1 x (by simp [hx]))

lemma processEvents_cause (mode tc : String) (ec : Bool) :
    ∀ (evs : List PyEvent) (o : StartOutcome),
      processEvents mode tc ec evs = some o →
      ∃ e ∈ evs, processEvent mode tc ec e = some o := by
  intro evs
  induction evs with
  | nil => intro o h; simp [processEvents] at h
  | cons a as ih =>
    intro o h
    simp only [processEvents] at h
    split at h
    next o2 heq => exact ⟨a, by simp, heq.trans h⟩
    next heq =>
      obtain ⟨e, he, hpr⟩ := ih o h
      exact ⟨e, by simp [he], hpr⟩

lemma waitLoop_started_cause (mode tc : String) (ec hh : Bool) :
    ∀ polls : List (List PyEvent × Bool),
      waitLoop mode tc ec hh polls = some StartOutcome.started →
      (∃ p ∈ polls, ∃ e ∈ p.1, processEvent mode tc ec e = some StartOutcome.started) ∨
      (startModeAllowsTrigger mode = true ∧ hh = true ∧ ∃ p ∈ polls, p.2 = true) := by
  intro polls
  induction polls with
  | nil => intro h; simp [waitLoop] at h
  | cons p rest ih =>
    intro h
    obtain ⟨evs, trig⟩ := p
    simp only [waitLoop] at h
    split at h
    next o2 heq =>
      have ho : o2 = StartOutcome.started := by injection h
      subst ho
      obtain ⟨e, he, hpr⟩ := processEvents_cause mode tc ec evs StartOutcome.started heq
      exact Or.inl ⟨(evs, trig), by simp, e, he, hpr⟩
    next heq =>
      by_cases hser : startModeAllowsTrigger mode = true ∧ hh = true ∧ trig = true
      · exact Or.inr ⟨hser.1, hser.2.1, (evs, trig), by simp, hser.2.2⟩
      · rw [if_neg hser] at h
        rcases ih h with ⟨q, hq, e, he, hpr⟩ | ⟨hm, hhh, q, hq, htr⟩
        · exact Or.inl ⟨q, by simp [hq], e, he, hpr⟩
        · exact Or.inr ⟨hm, hhh, q, by simp [hq], htr⟩

lemma processEvent_manual_started (tc : String) (ec : Bool) (e : PyEvent)
    (h : processEvent ("manual") tc ec e = some StartOutcome.started) :
    isSpaceKeydown e = true := by
  cases e with
  | quit => simp [processEvent] at h
  | keydown k u =>
    simp only [processEvent] at h
    split_ifs at h with h1 h2 h3
    · obtain ⟨hk, _⟩ := h1
      subst hk
      rfl
    · exact absurd h2.1 (by decide)
    · simp at h

lemma processEvent_trigger_started (tc : String) (ec : Bool) (e : PyEvent)
    (h : processEvent ("trigger") tc ec e = some StartOutcome.started) :
    isTriggerKeystroke tc e = true := by
  cases e with
  | quit => simp [processEvent] at h
  | keydown k u =>
    simp only [processEvent] at h
    split_ifs at h with h1 h2 h3
    · exact absurd h1.2 (by decide)
    · simp [isTriggerKeystroke, h2.2.1, h2.2.2]
    · simp at h

/-- C7 counterexample: with start mode "trigger" and the trigger character
configured as the space character " ", a single well-formed space-key press
makes wait_for_start return Started, so in Trigger mode the gate can return
Started on the space key, contrary to the claim. -/
theorem c7_counterexample :
    wait_for_start ("trigger") (" ") true true
      [([PyEvent.keydown Key.space (" ")], false)] = some StartOutcome.started ∧
    isSpaceKeydown (PyEvent.keydown Key.space (" ")) = true ∧
    wfEvent (PyEvent.keydown Key.space (" ")) = true := by
  refine ⟨?_, rfl, ?_⟩ <;> decide

/-- C7 amended: the mode gating holds provided the trigger character is not
the space character (so that no well-formed event is both the space key and a
trigger-character keystroke).  Then with startMode "manual" no
trigger-character keystroke decides Started and a whole trace without any
space keydown never yields Started (in particular pending TriggerEvents are
ignored); with startMode "trigger" a well-formed space keydown never decides
Started and a trace without trigger keystrokes or pending serial triggers
never yields Started; with startMode "both" the space key, any
trigger-character keystroke, and a pending TriggerEvent each suffice. -/
theorem c7_amended (tc : String) (ec hh : Bool) (htc : lowerStr tc ≠ " ") :
    (∀ e : PyEvent, wfEvent e = true → isTriggerKeystroke tc e = true →
        processEvent ("manual") tc ec e ≠ some StartOutcome.started) ∧
    (∀ polls : List (List PyEvent × Bool),
        (∀ p ∈ polls, ∀ e ∈ p.1, isSpaceKeydown e = false) →
        wait_for_start ("manual") tc ec hh polls ≠ some StartOutcome.started) ∧
    (∀ u : String, wfEvent (PyEvent.keydown Key.space u) = true →
        processEvent ("trigger") tc ec (PyEvent.keydown Key.space u) ≠
          some StartOutcome.started) ∧
    (∀ polls : List (List PyEvent × Bool),
        (∀ p ∈ polls, p.2 = false) →
        (∀ p ∈ polls, ∀ e ∈ p.1, isTriggerKeystroke tc e = false) →
        wait_for_start ("trigger") tc ec hh polls ≠ some StartOutcome.started) ∧
    (processEvent ("both") tc ec (PyEvent.keydown Key.space (" ")) =
        some StartOutcome.started) ∧
    (∀ k u, isTriggerKeystroke tc (PyEvent.keydown k u) = true →
        processEvent ("both") tc ec (PyEvent.keydown k u) = some StartOutcome.started) ∧
    (hh = true → wait_for_start ("both") tc ec hh [([], true)] =
        some StartOutcome.started) := by
  refine ⟨?_, ?_, ?_, ?_, ?_, ?_, ?_⟩
  · intro e hwf htk hst
    have hsp := processEvent_manual_started tc ec e hst
    cases e with
    | quit => simp [isSpaceKeydown] at hsp
    | keydown k u =>
      cases k with
      | space =>
        simp only [wfEvent, decide_eq_true_eq] at hwf
        subst hwf
        simp only [isTriggerKeystroke, decide_eq_true_eq] at htk
        exact htc (htk.2.symm.trans (by rfl))
      | escape => simp [isSpaceKeydown] at hsp
      | other c => simp [isSpaceKeydown] at hsp
  · intro polls hnosp hst
    have hl : lowerStr ("manual") = "manual" := rfl
    have hcause := waitLoop_started_cause ("manual") tc ec hh polls
      (by simpa [wait_for_start, hl] using hst)
    rcases hcause with ⟨p, hp, e, he, hpr⟩ | ⟨hm, _, _⟩
    · have := processEvent_manual_started tc ec e hpr
      rw [hnosp p hp e he] at this
      exact Bool.false_ne_true this
    · simp [startModeAllowsTrigger] at hm
  · intro u hwf hst
    have htk := processEvent_trigger_started tc ec _ hst
    simp only [wfEvent, decide_eq_true_eq] at hwf
    subst hwf
    simp only [isTriggerKeystroke, decide_eq_true_eq] at htk
    exact htc (htk.2.symm.trans (by rfl))
  · intro polls hser hnotk hst
    have hl : lowerStr ("trigger") = "trigger" := rfl
    have hcause := waitLoop_started_cause ("trigger") tc ec hh polls
      (by simpa [wait_for_start, hl] using hst)
    rcases hcause with ⟨p, hp, e, he, hpr⟩ | ⟨_, _, q, hq, htr⟩
    · have := processEvent_trigger_started tc ec e hpr
      rw [hnotk p hp e he] at this
      exact Bool.false_ne_true this
    · rw [hser q hq] at htr
      exact Bool.false_ne_true htr
  · simp [processEvent]
  · intro k u htk
    simp only [isTriggerKeystroke, decide_eq_true_eq] at htk
    by_cases hk : k = Key.space
    · subst hk; simp [processEvent]
    · simp [processEvent, hk, htk.1, htk.2]
  · intro hhh
    subst hhh
    have hl : lowerStr ("both") = "both" := rfl
    simp [wait_for_start, waitLoop, processEvents, hl, startModeAllowsTrigger]

/-- C7 amended witness: a concrete instantiation with trigger character "=",
checking that in manual mode a "=" keystroke does not start and a trace of
"=" keystrokes plus a pending trigger never starts, that in trigger mode the
space key does not start, and that in both mode each start source works. -/
theorem c7_amended_witness :
    (processEvent ("manual") ("=") true (PyEvent.keydown (Key.other 61) ("=")) ≠
        some StartOutcome.started) ∧
    (wait_for_start ("manual") ("=") true true
        [([PyEvent.keydown (Key.other 61) ("=")], true)] ≠ some StartOutcome.started) ∧
    (processEvent ("trigger") ("=") true (PyEvent.keydown Key.space (" ")) ≠
        some StartOutcome.started) ∧
    (processEvent ("both") ("=") true (PyEvent.keydown Key.space (" ")) =
        some StartOutcome.started) ∧
    (wait_for_start ("both") ("=") true true [([], true)] = some StartOutcome.started) := by
  have h := c7_amended ("=") true true (by decide)
  exact ⟨h.1 (PyEvent.keydown (Key.other 61) ("=")) (by decide) (by decide),
    h.2.1 [([PyEvent.keydown (Key.other 61) ("=")], true)]
      (by intro p hp e he; simp at hp; subst hp; simp at he; subst he; rfl),
    h.2.2.1 (" ") (by decide),
    h.2.2.2.2.1,
    h.2.2.2.2.2.2 rfl⟩

/-- C4 counterexample: with start mode "both", a poll whose event queue holds
a space keydown followed by an escape keydown returns Started although a
cancel event (the escape keydown, shown to decide Cancelled on its own) was
pending in the same poll; the claimed unconditional cancel priority fails. -/
theorem c4_counterexample :
    wait_for_start ("both") ("=") true true
      [([PyEvent.keydown Key.space (" "), PyEvent.keydown Key.escape ("\x1b")], false)] =
      some StartOutcome.started ∧
    processEvent ("both") ("=") true (PyEvent.keydown Key.escape ("\x1b")) =
      some StartOutcome.cancelled := by
  constructor <;> decide

/-- C4 amended: priority inside one poll is queue order.  The outcome of the
gate is decided by the first decisive event of the poll: if every event
before e is non-decisive and e decides outcome o (in particular o = Cancelled
for a quit or escape event), the gate returns o regardless of any start or
cancel events after e in the same queue and regardless of a pending
TriggerEvent; so a cancel event has priority exactly over the start
conditions evaluated after it in that poll, including the serial-trigger
check, but not over an earlier start keystroke. -/
theorem c4_amended (mode tc : String) (ec hh : Bool) (evs1 evs2 : List PyEvent)
    (e : PyEvent) (trig : Bool) (rest : List (List PyEvent × Bool)) (o : StartOutcome)
    (hbefore : ∀ x ∈ evs1, processEvent (lowerStr mode) tc ec x = none)
    (hdec : processEvent (lowerStr mode) tc ec e = some o) :
    wait_for_start mode tc ec hh ((evs1 ++ e :: evs2, trig) :: rest) = some o := by
  have hfirst := processEvents_append_first (lowerStr mode) tc ec evs1 e evs2 o hbefore hdec
  simp [wait_for_start, waitLoop, hfirst]

/-- C4 amended witness: an escape keydown at the head of the queue cancels
even though a space keydown and a pending serial trigger are in the same
poll. -/
theorem c4_amended_witness :
    wait_for_start ("both") ("=") true true
      [([PyEvent.keydown Key.escape ("\x1b"), PyEvent.keydown Key.space (" ")], true)] =
      some StartOutcome.cancelled :=
  c4_amended ("both") ("=") true true [] [PyEvent.keydown Key.space (" ")]
    (PyEvent.keydown Key.escape ("\x1b")) true [] StartOutcome.cancelled
    (by intro x hx; simp at hx) (by decide)

/-- C10: each phase runner treats a missing display or missing image as a
trivially completed phase: show_flashing_checkerboard with a None screen or
a None value for either checkerboard image, show_fixation with a None
screen, and show_instruction_image with a None screen or a None instruction
image all return Completed immediately, presenting nothing (no frames, no
flips) and independently of the configured duration and of the clock and
event trace. -/
theorem c10_guards :
    (∀ (i1 i2 : Option Image) (d f t0 : ℚ) (tr : List FlashIter) (ec : Bool),
        show_flashing_checkerboard none i1 i2 d f t0 tr ec = ⟨true, 0, [], t0, true⟩) ∧
    (∀ (s : Screen) (i2 : Option Image) (d f t0 : ℚ) (tr : List FlashIter) (ec : Bool),
        show_flashing_checkerboard (some s) none i2 d f t0 tr ec = ⟨true, 0, [], t0, true⟩) ∧
    (∀ (s : Screen) (i1 : Image) (d f t0 : ℚ) (tr : List FlashIter) (ec : Bool),
        show_flashing_checkerboard (some s) (some i1) none d f t0 tr ec =
          ⟨true, 0, [], t0, true⟩) ∧
    (∀ (img : Image) (d t0 : ℚ) (tr : List (ℚ × List PyEvent)) (ec : Bool),
        show_fixation none img d t0 tr ec = ⟨false, true⟩) ∧
    (∀ (i : Option Image) (d t0 : ℚ) (tr : List (ℚ × List PyEvent)) (ec : Bool),
        show_instruction_image none i d t0 tr ec = ⟨false, true⟩) ∧
    (∀ (s : Screen) (d t0 : ℚ) (tr : List (ℚ × List PyEvent)) (ec : Bool),
        show_instruction_image (some s) none d t0 tr ec = ⟨false, true⟩) := by
  refine ⟨?_, ?_, ?_, ?_, ?_, ?_⟩ <;> intros <;> rfl

lemma flashLoop_shape (fd endTime : ℚ) (ec : Bool) :
    ∀ (iters : List FlashIter) (img : Bool) (lf : ℚ) (m : Nat) (fl : List Bool),
      ∃ k, (flashLoop fd endTime ec iters img lf m fl).frameCount = m + k ∧
        (flashLoop fd endTime ec iters img lf m fl).lastFlipTime = lf + k * fd ∧
        (flashLoop fd endTime ec iters img lf m fl).flips = fl ++ altList img k := by
  intro iters
  induction iters with
  | nil =>
    intro img lf m fl
    exact ⟨0, by simp [flashLoop, altList]⟩
  | cons it rest ih =>
    intro img lf m fl
    by_cases h1 : it.tCheck < endTime
    · by_cases h2 : hasCancelEvent ec it.events = true
      · exact ⟨0, by simp [flashLoop, h1, h2, altList]⟩
      · by_cases h3 : lf + fd ≤ it.tCur
        · have hstep : flashLoop fd endTime ec (it :: rest) img lf m fl =
              flashLoop fd endTime ec rest (!img) (lf + fd) (m + 1) (fl ++ [img]) := by
            simp [flashLoop, h1, h2, h3]
          obtain ⟨k, hk1, hk2, hk3⟩ := ih (!img) (lf + fd) (m + 1) (fl ++ [img])
          refine ⟨k + 1, ?_, ?_, ?_⟩ <;> rw [hstep]
          · rw [hk1]; omega
          · rw [hk2]; push_cast; ring
          · rw [hk3]; simp [altList]
        · have hstep : flashLoop fd endTime ec (it :: rest) img lf m fl =
              flashLoop fd endTime ec rest img lf m fl := by
            simp [flashLoop, h1, h2, h3]
          obtain ⟨k, hk1, hk2, hk3⟩ := ih img lf m fl
          exact ⟨k, by rw [hstep]; exact hk1, by rw [hstep]; exact hk2,
            by rw [hstep]; exact hk3⟩
    · exact ⟨0, by simp [flashLoop, h1, altList]⟩

lemma flashLoop_no_early (fd endTime : ℚ) (ec : Bool) :
    ∀ (iters : List FlashIter) (img : Bool) (lf : ℚ) (m : Nat) (fl : List Bool),
      (∀ it ∈ iters, it.tCur < lf + fd) →
      (flashLoop fd endTime ec iters img lf m fl).frameCount = m := by
  intro iters
  induction iters with
  | nil => intro img lf m fl _; simp [flashLoop]
  | cons it rest ih =>
    intro img lf m fl hearly
    by_cases h1 : it.tCheck < endTime
    · by_cases h2 : hasCancelEvent ec it.events = true
      · simp [flashLoop, h1, h2]
      · have h3 : ¬ (lf + fd ≤ it.tCur) := not_le.mpr (hearly it (by simp))
        have hstep : flashLoop fd endTime ec (it :: rest) img lf m fl =
            flashLoop fd endTime ec rest img lf m fl := by
          simp [flashLoop, h1, h2, h3]
        rw [hstep]
        exact ih img lf m fl (fun x hx => hearly x (by simp [hx]))
    · simp [flashLoop, h1]

lemma flashLoop_completes (fd endTime : ℚ) (ec : Bool) :
    ∀ (iters : List FlashIter) (p : ℚ) (img : Bool) (lf : ℚ) (m : Nat) (fl : List Bool),
      wellSpaced fd p iters = true →
      noCancelIters ec iters = true →
      reachesEnd endTime iters = true →
      lf ≤ p → p < lf + fd → p < endTime + fd / 2 →
      (flashLoop fd endTime ec iters img lf m fl).completed = true ∧
      endTime - fd - fd / 2 < (flashLoop fd endTime ec iters img lf m fl).lastFlipTime ∧
      (flashLoop fd endTime ec iters img lf m fl).lastFlipTime < endTime + fd / 2 := by
  intro iters
  induction iters with
  | nil =>
    intro p img lf m fl _ _ hre _ _ _
    simp [reachesEnd] at hre
  | cons it rest ih =>
    intro p img lf m fl hws hnc hre hlp hpf hpe
    simp only [wellSpaced, Bool.and_eq_true, decide_eq_true_eq] at hws
    obtain ⟨⟨⟨⟨hp1, hp2⟩, hp3⟩, hp4⟩, hws2⟩ := hws
    simp only [noCancelIters, List.all_cons, Bool.and_eq_true, Bool.not_eq_true] at hnc
    obtain ⟨hnc1, hnc2⟩ := hnc
    by_cases h1 : it.tCheck < endTime
    · have hre2 : reachesEnd endTime rest = true := by
        simp only [reachesEnd, List.any_cons, Bool.or_eq_true, decide_eq_true_eq] at hre
        rcases hre with hre | hre
        · exact absurd hre (not_le.mpr h1)
        · simpa [reachesEnd] using hre
      have hnc2b : noCancelIters ec rest = true := by simpa [noCancelIters] using hnc2
      have hnc1f : hasCancelEvent ec it.events = false := by simpa using hnc1
      by_cases h3 : lf + fd ≤ it.tCur
      · have hstep : flashLoop fd endTime ec (it :: rest) img lf m fl =
            flashLoop fd endTime ec rest (!img) (lf + fd) (m + 1) (fl ++ [img]) := by
          simp [flashLoop, h1, hnc1f, h3]
        rw [hstep]
        refine ih it.tCur (!img) (lf + fd) (m + 1) (fl ++ [img]) hws2 hnc2b hre2 h3 ?_ ?_
        · linarith
        · linarith
      · have hstep : flashLoop fd endTime ec (it :: rest) img lf m fl =
            flashLoop fd endTime ec rest img lf m fl := by
          simp [flashLoop, h1, hnc1f, h3]
        rw [hstep]
        refine ih it.tCur img lf m fl hws2 hnc2b hre2 ?_ ?_ ?_
        · linarith
        · linarith [not_le.mp h3]
        · linarith
    · have hstep : flashLoop fd endTime ec (it :: rest) img lf m fl =
          ⟨true, m, fl, lf, img⟩ := by
        simp [flashLoop, h1]
      rw [hstep]
      have hce : endTime ≤ it.tCheck := not_lt.mp h1
      refine ⟨rfl, ?_, ?_⟩
      · show endTime - fd - fd / 2 < lf
        linarith
      · show lf < endTime + fd / 2
        linarith

/-- C1 counterexample: a checkerboard run with the claim's own example
parameters (duration 20 s, frequency 8 Hz) that completes without
cancellation but whose loop iterations are sparse (a single iteration at the
start, then one past the end time) performs 0 flips, far outside the claimed
tolerance of 2 around round(2*20*8) = 320; so the flip-count bound does not
hold regardless of per-iteration scheduling jitter. -/
theorem c1_counterexample :
    (show_flashing_checkerboard (some Screen.mk) (some (Image.loaded ("acheck_by.png")))
      (some (Image.loaded ("acheck_by_.png"))) 20 8 0
      [⟨0, [], 0⟩, ⟨25, [], 25⟩] true).completed = true ∧
    (show_flashing_checkerboard (some Screen.mk) (some (Image.loaded ("acheck_by.png")))
      (some (Image.loaded ("acheck_by_.png"))) 20 8 0
      [⟨0, [], 0⟩, ⟨25, [], 25⟩] true).frameCount + 2 < 320 := by
  constructor <;> norm_num [show_flashing_checkerboard, flashLoop, hasCancelEvent]

/-- C1 amended: the flip-count property holds under bounded per-iteration
scheduling jitter, not regardless of it.  If consecutive clock readings of
the loop each advance by at most halfPeriod/2 (wellSpaced), no cancel event
occurs, the trace reaches the end time, and 2*duration*frequency is the
natural number N, then the run completes and the number of flips is N or
N - 1 — in particular within the claimed tolerance of 2 of
round(2*duration*frequency). -/
theorem c1_amended (duration frequency t0 : ℚ) (iters : List FlashIter) (ec : Bool)
    (scr : Screen) (a b : Image) (N : Nat)
    (hfreq : 0 < frequency)
    (hN : (N : ℚ) * (1 / frequency / 2) = duration)
    (hws : wellSpaced (1 / frequency / 2) t0 iters = true)
    (hnc : noCancelIters ec iters = true)
    (hre : reachesEnd (t0 + duration) iters = true) :
    (show_flashing_checkerboard (some scr) (some a) (some b)
        duration frequency t0 iters ec).completed = true ∧
    (show_flashing_checkerboard (some scr) (some a) (some b)
        duration frequency t0 iters ec).frameCount ≤ N ∧
    N ≤ (show_flashing_checkerboard (some scr) (some a) (some b)
        duration frequency t0 iters ec).frameCount + 1 ∧
    (show_flashing_checkerboard (some scr) (some a) (some b)
        duration frequency t0 iters ec).frameCount ≤ N + 2 ∧
    N ≤ (show_flashing_checkerboard (some scr) (some a) (some b)
        duration frequency t0 iters ec).frameCount + 2 := by
  have hfd : 0 < 1 / frequency / 2 := by positivity
  have hdur : 0 ≤ duration := by
    rw [← hN]
    positivity
  have hguard : show_flashing_checkerboard (some scr) (some a) (some b)
      duration frequency t0 iters ec =
      flashLoop (1 / frequency / 2) (t0 + duration) ec iters true t0 0 [] := by
    simp [show_flashing_checkerboard]
  rw [hguard]
  obtain ⟨hcomp, hlo, hhi⟩ :=
    flashLoop_completes (1 / frequency / 2) (t0 + duration) ec iters t0 true t0 0 []
      hws hnc hre le_rfl (by linarith) (by linarith)
  obtain ⟨k, hk1, hk2, _⟩ :=
    flashLoop_shape (1 / frequency / 2) (t0 + duration) ec iters true t0 0 []
  rw [hk2] at hlo hhi
  have hNk1 : (N : ℚ) < (k : ℚ) + 2 := by nlinarith [hlo, hfd, hN]
  have hNk2 : (k : ℚ) < (N : ℚ) + 1 := by nlinarith [hhi, hfd, hN]
  have hn1 : N < k + 2 := by exact_mod_cast hNk1
  have hn2 : k < N + 1 := by exact_mod_cast hNk2
  refine ⟨hcomp, ?_, ?_, ?_, ?_⟩ <;> rw [hk1] <;> omega

/-- C1 amended witness: the amended bound instantiated at duration 1/4 s,
frequency 8 Hz (so N = 4) on a concrete dense trace. -/
theorem c1_amended_witness :
    (show_flashing_checkerboard (some Screen.mk) (some (Image.loaded ("acheck_by.png")))
        (some (Image.loaded ("acheck_by_.png"))) (1/4) 8 0 c1WitnessTrace true).completed
        = true ∧
    (show_flashing_checkerboard (some Screen.mk) (some (Image.loaded ("acheck_by.png")))
        (some (Image.loaded ("acheck_by_.png"))) (1/4) 8 0 c1WitnessTrace true).frameCount
        ≤ 4 ∧
    4 ≤ (show_flashing_checkerboard (some Screen.mk) (some (Image.loaded ("acheck_by.png")))
        (some (Image.loaded ("acheck_by_.png"))) (1/4) 8 0 c1WitnessTrace true).frameCount
        + 1 ∧
    (show_flashing_checkerboard (some Screen.mk) (some (Image.loaded ("acheck_by.png")))
        (some (Image.loaded ("acheck_by_.png"))) (1/4) 8 0 c1WitnessTrace true).frameCount
        ≤ 4 + 2 ∧
    4 ≤ (show_flashing_checkerboard (some Screen.mk) (some (Image.loaded ("acheck_by.png")))
        (some (Image.loaded ("acheck_by_.png"))) (1/4) 8 0 c1WitnessTrace true).frameCount
        + 2 :=
  c1_amended (1/4) 8 0 c1WitnessTrace true Screen.mk
    (Image.loaded ("acheck_by.png")) (Image.loaded ("acheck_by_.png")) 4
    (by norm_num)
    (by norm_num)
    (by norm_num [c1WitnessTrace, wellSpaced])
    (by norm_num [c1WitnessTrace, noCancelIters, hasCancelEvent])
    (by norm_num [c1WitnessTrace, reachesEnd])

/-- C2 counterexample: with frequency 8 Hz and phase start t0 = 0, an
iteration that observes now = t0 — the time at which the claim says the
first presentation of imageA is due — performs no presentation (frameCount
stays 0), while an iteration that observes now = t0 + halfPeriod = 1/16 does
present imageA; so the first flip deadline is t0 + halfPeriod, not t0. -/
theorem c2_counterexample :
    (show_flashing_checkerboard (some Screen.mk) (some (Image.loaded ("acheck_by.png")))
      (some (Image.loaded ("acheck_by_.png"))) 1 8 0 [⟨0, [], 0⟩] true).frameCount = 0 ∧
    (show_flashing_checkerboard (some Screen.mk) (some (Image.loaded ("acheck_by.png")))
      (some (Image.loaded ("acheck_by_.png"))) 1 8 0 [⟨0, [], 1/16⟩] true).frameCount = 1 ∧
    (show_flashing_checkerboard (some Screen.mk) (some (Image.loaded ("acheck_by.png")))
      (some (Image.loaded ("acheck_by_.png"))) 1 8 0 [⟨0, [], 1/16⟩] true).flips = [true] := by
  refine ⟨?_, ?_, ?_⟩ <;> norm_num [show_flashing_checkerboard, flashLoop, hasCancelEvent]

/-- C2 amended: last_flip_time is initialized to t0 and a presentation
requires now ≥ last_flip_time + halfPeriod, so the first presentation of
imageA is due at t0 + halfPeriod, not at t0.  The rest of the claim holds:
presentations alternate starting with imageA, and the deadline advances
additively — after m presentations last_flip_time equals t0 + m*halfPeriod,
so the next presentation is due at t0 + (m+1)*halfPeriod.  In particular a
run none of whose clock readings reaches t0 + halfPeriod presents nothing. -/
theorem c2_amended (duration frequency t0 : ℚ) (iters : List FlashIter) (ec : Bool)
    (scr : Screen) (a b : Image) (hfreq : 0 < frequency) :
    (show_flashing_checkerboard (some scr) (some a) (some b)
        duration frequency t0 iters ec).flips =
      altList true (show_flashing_checkerboard (some scr) (some a) (some b)
        duration frequency t0 iters ec).frameCount ∧
    (show_flashing_checkerboard (some scr) (some a) (some b)
        duration frequency t0 iters ec).lastFlipTime =
      t0 + (show_flashing_checkerboard (some scr) (some a) (some b)
        duration frequency t0 iters ec).frameCount * (1 / frequency / 2) ∧
    ((∀ it ∈ iters, it.tCur < t0 + 1 / frequency / 2) →
      (show_flashing_checkerboard (some scr) (some a) (some b)
        duration frequency t0 iters ec).frameCount = 0) := by
  have hguard : show_flashing_checkerboard (some scr) (some a) (some b)
      duration frequency t0 iters ec =
      flashLoop (1 / frequency / 2) (t0 + duration) ec iters true t0 0 [] := by
    simp [show_flashing_checkerboard]
  rw [hguard]
  obtain ⟨k, hk1, hk2, hk3⟩ :=
    flashLoop_shape (1 / frequency / 2) (t0 + duration) ec iters true t0 0 []
  refine ⟨?_, ?_, ?_⟩
  · rw [hk3, hk1]
    simp
  · rw [hk2, hk1]
    simp
  · intro hearly
    exact flashLoop_no_early (1 / frequency / 2) (t0 + duration) ec iters true t0 0 []
      (by simpa using hearly)

/-- C2 amended witness: at frequency 8 Hz, t0 = 0, with the single iteration
reading now = 0 (below the first deadline 1/16), the run presents nothing
and the deadline state is unchanged. -/
theorem c2_amended_witness :
    (show_flashing_checkerboard (some Screen.mk) (some (Image.loaded ("acheck_by.png")))
        (some (Image.loaded ("acheck_by_.png"))) (1/4) 8 0 [⟨0, [], 0⟩] true).flips =
      altList true (show_flashing_checkerboard (some Screen.mk)
        (some (Image.loaded ("acheck_by.png")))
        (some (Image.loaded ("acheck_by_.png"))) (1/4) 8 0 [⟨0, [], 0⟩] true).frameCount ∧
    (show_flashing_checkerboard (some Screen.mk) (some (Image.loaded ("acheck_by.png")))
        (some (Image.loaded ("acheck_by_.png"))) (1/4) 8 0 [⟨0, [], 0⟩] true).lastFlipTime =
      0 + (show_flashing_checkerboard (some Screen.mk)
        (some (Image.loaded ("acheck_by.png")))
        (some (Image.loaded ("acheck_by_.png"))) (1/4) 8 0
        [⟨0, [], 0⟩] true).frameCount * (1 / (8 : ℚ) / 2) ∧
    (show_flashing_checkerboard (some Screen.mk) (some (Image.loaded ("acheck_by.png")))
        (some (Image.loaded ("acheck_by_.png"))) (1/4) 8 0 [⟨0, [], 0⟩] true).frameCount = 0 := by
  have h := c2_amended (1/4) 8 0 [⟨0, [], 0⟩] true Screen.mk
    (Image.loaded ("acheck_by.png")) (Image.loaded ("acheck_by_.png")) (by norm_num)
  exact ⟨h.1, h.2.1, h.2.2 (by intro it hit; simp at hit; subst hit; norm_num)⟩

lemma runCycles_all_ok (oracle : PhaseOracle)
    (hfix : ∀ c, oracle.fixationOk c = true)
    (hcb : ∀ c, oracle.checkerboardOk c = true) :
    ∀ (n c : Nat), runCycles oracle c n = (cyclesList c n, true) := by
  intro n
  induction n with
  | zero => intro c; rfl
  | succ n ih =>
    intro c
    simp [runCycles, cyclesList, hfix c, hcb c, ih (c + 1)]

lemma surfaceTruthy_true (i : Image) : surfaceTruthy i = true := rfl

lemma durations_positive :
    (decide (CHECKERBOARD_DURATION ≤ 0) || decide (FIXATION_DURATION ≤ 0)) = false := by
  have h1 : ¬ (CHECKERBOARD_DURATION ≤ 0) := by norm_num [CHECKERBOARD_DURATION]
  have h2 : ¬ (FIXATION_DURATION ≤ 0) := by norm_num [FIXATION_DURATION]
  simp [decide_eq_false h1, decide_eq_false h2]

lemma run_task_some (fs : FS) (cfg : Config) (oracle : PhaseOracle) (pr : Image × Image)
    (hlc : load_checkerboard_images fs cfg.cb1 cfg.cb2 = some pr) :
    run_task fs cfg oracle =
      if oracle.gate = false then ⟨false, true, [], false⟩
      else if oracle.instructionOk = false then
        ⟨false, true, [PhaseKind.instruction], false⟩
      else ⟨false, true, PhaseKind.instruction :: (runCycles oracle 1 NUM_CYCLES).1,
        (runCycles oracle 1 NUM_CYCLES).2⟩ := by
  unfold run_task
  rw [hlc]
  simp [surfaceTruthy_true, durations_positive]

/-- C3: with the checkerboard pair loadable and no cancellation anywhere
(gate started, every phase call completing), run_task visits the phases in
exactly the order Instruction then five repetitions of (Fixation,
Checkerboard) with ascending cycle indices, shows no error, and returns the
completed outcome.  The Instruction phase is the optional head of the
sequence; in this program it is always present because the instruction
surface is always created. -/
theorem c3_phase_order (fs : FS) (cfg : Config) (oracle : PhaseOracle)
    (hcb : load_checkerboard_images fs cfg.cb1 cfg.cb2 ≠ none)
    (hgate : oracle.gate = true)
    (hinstr : oracle.instructionOk = true)
    (hfix : ∀ c, oracle.fixationOk c = true)
    (hcbp : ∀ c, oracle.checkerboardOk c = true) :
    run_task fs cfg oracle =
      ⟨false, true,
        [PhaseKind.instruction,
         PhaseKind.fixation 1, PhaseKind.checkerboard 1,
         PhaseKind.fixation 2, PhaseKind.checkerboard 2,
         PhaseKind.fixation 3, PhaseKind.checkerboard 3,
         PhaseKind.fixation 4, PhaseKind.checkerboard 4,
         PhaseKind.fixation 5, PhaseKind.checkerboard 5], true⟩ := by
  cases hlc : load_checkerboard_images fs cfg.cb1 cfg.cb2 with
  | none => exact absurd hlc hcb
  | some pr =>
    rw [run_task_some fs cfg oracle pr hlc]
    rw [runCycles_all_ok oracle hfix hcbp NUM_CYCLES 1]
    simp [hgate, hinstr, NUM_CYCLES, cyclesList]

/-- C3 witness: the phase order at a concrete file system, configuration
and all-completing oracle. -/
theorem c3_phase_order_witness :
    run_task fsAll cfgDefault oracleAllOk =
      ⟨false, true,
        [PhaseKind.instruction,
         PhaseKind.fixation 1, PhaseKind.checkerboard 1,
         PhaseKind.fixation 2, PhaseKind.checkerboard 2,
         PhaseKind.fixation 3, PhaseKind.checkerboard 3,
         PhaseKind.fixation 4, PhaseKind.checkerboard 4,
         PhaseKind.fixation 5, PhaseKind.checkerboard 5], true⟩ :=
  c3_phase_order fsAll cfgDefault oracleAllOk
    (by simp [load_checkerboard_images, fsAll, cfgDefault])
    rfl rfl (fun _ => rfl) (fun _ => rfl)

/-- C5 counterexample: a session cancelled at the start gate (run reaches
the gate, no asset error) and a session with a hard asset failure (both
checkerboard files missing, error message shown, gate never reached) exit
with the same code 1, so the non-zero code of a cancelled session is not
distinct from the non-zero code of a hard failure. -/
theorem c5_counterexample :
    (run_task fsAll cfgDefault oracleCancelledGate).gateReached = true ∧
    (run_task fsAll cfgDefault oracleCancelledGate).errorShown = false ∧
    (run_task fsAll cfgDefault oracleCancelledGate).success = false ∧
    mainExit true fsAll cfgDefault oracleCancelledGate = 1 ∧
    (run_task fsEmpty cfgDefault oracleAllOk).errorShown = true ∧
    (run_task fsEmpty cfgDefault oracleAllOk).gateReached = false ∧
    (run_task fsEmpty cfgDefault oracleAllOk).success = false ∧
    mainExit true fsEmpty cfgDefault oracleAllOk = 1 := by
  refine ⟨?_, ?_, ?_, ?_, ?_, ?_, ?_, ?_⟩ <;>
    norm_num [run_task, mainExit, load_checkerboard_images, load_fixation_image,
      load_instruction_image, surfaceTruthy, fsAll, fsEmpty, cfgDefault,
      oracleCancelledGate, oracleAllOk, CHECKERBOARD_DURATION, FIXATION_DURATION,
      runCycles, NUM_CYCLES]

/-- C5 amended: the process exit code is 0 exactly when the display
initializes and the session runs to full completion, and it is always 0 or
1; a cancelled session and a hard asset failure both exit with the same
non-zero code 1, not with distinct codes. -/
theorem c5_amended (d : Bool) (fs : FS) (cfg : Config) (oracle : PhaseOracle) :
    (mainExit d fs cfg oracle = 0 ↔
      d = true ∧ (run_task fs cfg oracle).success = true) ∧
    (mainExit d fs cfg oracle = 0 ∨ mainExit d fs cfg oracle = 1) := by
  constructor
  · cases d
    · simp [mainExit]
    · by_cases hs : (run_task fs cfg oracle).success = true <;> simp [mainExit, hs]
  · cases d
    · simp [mainExit]
    · by_cases hs : (run_task fs cfg oracle).success = true <;> simp [mainExit, hs]

/-- C6 counterexample: with the instruction duration configured as 0 the
Instruction phase is not skipped: run_task still enters it first (the gating
condition is the instruction image being truthy, not the duration), and
show_instruction_image with duration 0 still blits and flips the image once
(a zero-length render) before completing. -/
theorem c6_counterexample :
    cfgZeroInstr.instructionDuration = 0 ∧
    (run_task fsAll cfgZeroInstr oracleAllOk).phases.head? =
      some PhaseKind.instruction ∧
    (show_instruction_image (some Screen.mk) (some (Image.renderedText ("blue_yellow")))
        0 0 [] true).presented = true ∧
    (show_instruction_image (some Screen.mk) (some (Image.renderedText ("blue_yellow")))
        0 0 [] true).completed = true := by
  refine ⟨rfl, ?_, rfl, rfl⟩
  norm_num [run_task, load_checkerboard_images, load_fixation_image,
    load_instruction_image, surfaceTruthy, fsAll, cfgZeroInstr, oracleAllOk,
    CHECKERBOARD_DURATION, FIXATION_DURATION, runCycles, NUM_CYCLES]

/-- C6 amended: the Instruction phase is gated on the instruction image
being truthy, which it always is, so whenever the session starts (assets
loadable, gate started) the Instruction phase runs first regardless of the
configured instruction duration; with duration 0 the phase is a zero-length
render, not a skip: the image is presented once and the phase completes at
the first clock reading at or after the phase start, without consulting any
event. -/
theorem c6_amended :
    (∀ (fs : FS) (cfg : Config) (oracle : PhaseOracle),
        load_checkerboard_images fs cfg.cb1 cfg.cb2 ≠ none →
        oracle.gate = true →
        (run_task fs cfg oracle).phases.head? = some PhaseKind.instruction) ∧
    (∀ (s : Screen) (i : Image) (t0 t : ℚ) (evs : List PyEvent)
        (rest : List (ℚ × List PyEvent)) (ec : Bool),
        t0 ≤ t →
        show_instruction_image (some s) (some i) 0 t0 ((t, evs) :: rest) ec =
          ⟨true, true⟩) := by
  constructor
  · intro fs cfg oracle hcb hgate
    cases hlc : load_checkerboard_images fs cfg.cb1 cfg.cb2 with
    | none => exact absurd hlc hcb
    | some pr =>
      rw [run_task_some fs cfg oracle pr hlc]
      by_cases hio : oracle.instructionOk = false <;> simp [hgate, hio]
  · intro s i t0 t evs rest ec ht
    have hnl : ¬ (t < t0) := not_lt.mpr ht
    simp [show_instruction_image, staticLoop, hnl]

/-- C6 amended witness: the instruction phase heads the trace at a concrete
zero-duration configuration, and a concrete zero-duration
show_instruction_image call presents and completes at once. -/
theorem c6_amended_witness :
    (run_task fsAll cfgZeroInstr oracleAllOk).phases.head? =
      some PhaseKind.instruction ∧
    show_instruction_image (some Screen.mk) (some (Image.renderedText ("blue_yellow")))
      0 0 [(0, [PyEvent.quit])] true = ⟨true, true⟩ :=
  ⟨c6_amended.1 fsAll cfgZeroInstr oracleAllOk
      (by simp [load_checkerboard_images, fsAll, cfgZeroInstr]) rfl,
    c6_amended.2 Screen.mk (Image.renderedText ("blue_yellow")) 0 0 [PyEvent.quit] [] true
      le_rfl⟩

/-- C8: a missing or unloadable checkerboard image pair is fatal — run_task
shows the error message, never reaches the start gate, enters no phase, and
the process exits with the non-zero code 1 — whereas fixation and
instruction images degrade: when the configured path is absent, unloadable
or not configured, the loaders return the programmatic fallback (centered
cross, rendered instruction text) instead of failing, and with the
checkerboard pair loadable the session always proceeds past asset loading to
the start gate with no error, whatever the fixation and instruction
availability. -/
theorem c8_assets (fs : FS) (cfg : Config) (oracle : PhaseOracle) :
    (load_checkerboard_images fs cfg.cb1 cfg.cb2 = none →
      run_task fs cfg oracle = ⟨true, false, [], false⟩ ∧
      mainExit true fs cfg oracle = 1) ∧
    (∀ p scheme : String, (fs.pathExists p && fs.loadable p) = false →
      load_fixation_image fs (some p) scheme = Image.renderedCross scheme) ∧
    (∀ scheme : String, load_fixation_image fs none scheme = Image.renderedCross scheme) ∧
    (∀ (p scheme : String) (txt : Option String),
      (fs.pathExists p && fs.loadable p) = false →
      load_instruction_image fs (some p) scheme txt = Image.renderedText scheme) ∧
    (∀ (scheme : String) (txt : Option String),
      load_instruction_image fs none scheme txt = Image.renderedText scheme) ∧
    (load_checkerboard_images fs cfg.cb1 cfg.cb2 ≠ none →
      (run_task fs cfg oracle).errorShown = false ∧
      (run_task fs cfg oracle).gateReached = true) := by
  refine ⟨?_, ?_, ?_, ?_, ?_, ?_⟩
  · intro hnone
    constructor
    · simp [run_task, hnone]
    · simp [mainExit, run_task, hnone]
  · intro p scheme hf
    cases hpe : fs.pathExists p <;> cases hl : fs.loadable p <;>
      simp_all [load_fixation_image]
  · intro scheme
    rfl
  · intro p scheme txt hf
    cases hpe : fs.pathExists p <;> cases hl : fs.loadable p <;>
      simp_all [load_instruction_image]
  · intro scheme txt
    rfl
  · intro hsome
    cases hlc : load_checkerboard_images fs cfg.cb1 cfg.cb2 with
    | none => exact absurd hlc hsome
    | some pr =>
      rw [run_task_some fs cfg oracle pr hlc]
      by_cases hg : oracle.gate = false
      · simp [hg]
      · by_cases hio : oracle.instructionOk = false <;> simp [hg, hio]

/-- C8 witness: concrete instantiations — with no files present the
checkerboard failure is fatal with exit code 1 before the gate, the fixation
and instruction loaders fall back to rendered surfaces, and with all files
present the session reaches the gate without error. -/
theorem c8_assets_witness :
    (run_task fsEmpty cfgDefault oracleAllOk = ⟨true, false, [], false⟩ ∧
      mainExit true fsEmpty cfgDefault oracleAllOk = 1) ∧
    load_fixation_image fsEmpty (some ("fix.png")) ("blue_yellow") =
      Image.renderedCross ("blue_yellow") ∧
    load_instruction_image fsEmpty (some ("instr.png")) ("blue_yellow") none =
      Image.renderedText ("blue_yellow") ∧
    ((run_task fsAll cfgDefault oracleAllOk).errorShown = false ∧
      (run_task fsAll cfgDefault oracleAllOk).gateReached = true) :=
  ⟨(c8_assets fsEmpty cfgDefault oracleAllOk).1
      (by simp [load_checkerboard_images, fsEmpty, cfgDefault]),
    (c8_assets fsEmpty cfgDefault oracleAllOk).2.1 ("fix.png") ("blue_yellow")
      (by simp [fsEmpty]),
    (c8_assets fsEmpty cfgDefault oracleAllOk).2.2.2.1 ("instr.png") ("blue_yellow") none
      (by simp [fsEmpty]),
    (c8_assets fsAll cfgDefault oracleAllOk).2.2.2.2.2
      (by simp [load_checkerboard_images, fsAll, cfgDefault])⟩

lemma getA_setA_same {α : Type} (l : List (String × α)) (k : String) (v : α) :
    getA (setA l k v) k = some v := by
  induction l with
  | nil => simp [setA, getA]
  | cons kv rest ih =>
    by_cases h : (kv.1 == k) = true
    · simp [setA, h, getA]
    · have hf : (kv.1 == k) = false := by simpa using h
      simpa [setA, hf, getA] using ih

lemma getA_setA_ne {α : Type} (l : List (String × α)) (k k0 : String) (v : α)
    (hne : ¬ (k0 = k)) : getA (setA l k v) k0 = getA l k0 := by
  have h1 : (k == k0) = false := by
    simp only [beq_eq_false_iff_ne]
    exact fun hh => hne hh.symm
  induction l with
  | nil => simp [setA, getA, h1]
  | cons kv rest ih =>
    by_cases h : (kv.1 == k) = true
    · have hkv : kv.1 = k := by simpa using h
      have h2 : (kv.1 == k0) = false := by rw [hkv]; exact h1
      simp [setA, h, getA, List.find?, h1, h2]
    · have hf : (kv.1 == k) = false := by simpa using h
      by_cases h0 : (kv.1 == k0) = true
      · simp [setA, hf, getA, List.find?, h0]
      · have h0f : (kv.1 == k0) = false := by simpa using h0
        simpa [setA, hf, getA, List.find?, h0f] using ih

lemma getA_setA_isSome {α : Type} (l : List (String × α)) (k k0 : String) (v : α)
    (h : (getA l k0).isSome = true) : (getA (setA l k v) k0).isSome = true := by
  by_cases he : k0 = k
  · subst he
    rw [getA_setA_same]
    rfl
  · rw [getA_setA_ne l k k0 v he]
    exact h

lemma mergeCfg_isSome (k : String) (h : (getA DEFAULT_CONFIG k).isSome = true)
    (fields : List (String × JVal)) : (getA (mergeCfg fields) k).isSome = true := by
  have hgen : ∀ (fs2 : List (String × JVal)) (acc : List (String × JVal)),
      (getA acc k).isSome = true →
      (getA (fs2.foldl (fun a kv => setA a kv.1 kv.2) acc) k).isSome = true := by
    intro fs2
    induction fs2 with
    | nil => intro acc ha; simpa using ha
    | cons kv rest ih =>
      intro acc ha
      simp only [List.foldl_cons]
      exact ih (setA acc kv.1 kv.2) (getA_setA_isSome acc kv.1 k kv.2 ha)
  exact hgen fields DEFAULT_CONFIG h

lemma getA_map_vjson (l : List (String × JVal)) (k : String) :
    getA (l.map (fun kv => (kv.1, PyVal.vjson kv.2))) k = (getA l k).map PyVal.vjson := by
  induction l with
  | nil => rfl
  | cons kv rest ih =>
    by_cases h : (kv.1 == k) = true
    · simp [getA, List.find?, h]
    · have hf : (kv.1 == k) = false := by simpa using h
      simpa [getA, List.find?, hf] using ih

lemma strOrMissing_strVal (l : List (String × JVal)) (k : String)
    (hm : strOrMissing l k = true) (hs : (getA l k).isSome = true) :
    ∃ s, getA l k = some (JVal.jstr s) := by
  cases hv : getA l k with
  | none =>
    rw [hv] at hs
    simp at hs
  | some j =>
    unfold strOrMissing at hm
    rw [hv] at hm
    cases j with
    | jstr s => exact ⟨s, rfl⟩
    | jnull => simp at hm
    | jbool b => simp at hm
    | jnum q => simp at hm
    | jarr e => simp at hm
    | jobj e => simp at hm

lemma strOrFalsy_cbFieldOk (l : List (String × JVal)) (k : String)
    (h : strOrFalsy l k = true) :
    cbFieldOk ((getA l k).map PyVal.vjson) = true := by
  cases hv : getA l k with
  | none => simp [cbFieldOk]
  | some j =>
    unfold strOrFalsy at h
    rw [hv] at h
    cases j <;> simp_all [cbFieldOk]

lemma applyColorScheme_ok (m : List (String × PyVal)) (s : String)
    (h : getA m ("color_scheme") = some (PyVal.vjson (JVal.jstr s))) :
    ∃ cs m1, applyColorScheme m = Except.ok (cs, m1) ∧
      (∃ s1, getA m1 ("color_scheme") = some (PyVal.vjson (JVal.jstr s1)) ∧
        (lowerStr s1 = "blue_yellow" ∨ lowerStr s1 = "black_white")) ∧
      (∀ k, ¬ (k = "color_scheme") → getA m1 k = getA m k) := by
  by_cases hv : lowerStr s = "blue_yellow" ∨ lowerStr s = "black_white"
  · refine ⟨lowerStr s, m, ?_, ⟨s, h, hv⟩, fun k hk => rfl⟩
    simp [applyColorScheme, h, asStrPV, hv]
  · refine ⟨"blue_yellow",
      setA m ("color_scheme") (PyVal.vjson (JVal.jstr ("blue_yellow"))), ?_,
      ⟨"blue_yellow", getA_setA_same m ("color_scheme") _, Or.inl rfl⟩,
      fun k hk => getA_setA_ne m ("color_scheme") k _ hk⟩
    simp [applyColorScheme, h, asStrPV, hv]

lemma applyStartMode_ok (m : List (String × PyVal)) (s : String)
    (h : getA m ("start_mode") = some (PyVal.vjson (JVal.jstr s))) :
    ∃ m3, applyStartMode m = Except.ok m3 ∧
      (∃ s1, getA m3 ("start_mode") = some (PyVal.vjson (JVal.jstr s1)) ∧
        (lowerStr s1 = "manual" ∨ lowerStr s1 = "trigger" ∨ lowerStr s1 = "both")) ∧
      (∀ k, ¬ (k = "start_mode") → getA m3 k = getA m k) := by
  by_cases hv : lowerStr s = "manual" ∨ lowerStr s = "trigger" ∨ lowerStr s = "both"
  · refine ⟨m, ?_, ⟨s, h, hv⟩, fun k hk => rfl⟩
    simp [applyStartMode, h, asStrPV, hv]
  · refine ⟨setA m ("start_mode") (PyVal.vjson (JVal.jstr ("both"))), ?_,
      ⟨"both", getA_setA_same m ("start_mode") _, Or.inr (Or.inr rfl)⟩,
      fun k hk => getA_setA_ne m ("start_mode") k _ hk⟩
    simp [applyStartMode, h, asStrPV, hv]

lemma cbStep (m : List (String × PyVal)) (key dflt : String) (hd : ¬ (dflt = ""))
    (h : cbFieldOk (getA m key) = true) :
    ∃ s, getA (cbAssign m key dflt) key =
      some (PyVal.vjson (JVal.jstr s)) ∧ ¬ (s = "") := by
  unfold cbAssign
  cases hv : getA m key with
  | none =>
    refine ⟨dflt, ?_, hd⟩
    simp [pyTruthyPV, pyTruthy, getA_setA_same]
  | some pv =>
    rw [hv] at h
    cases pv with
    | vfloat f => simp [cbFieldOk] at h
    | vjson j =>
      cases j with
      | jstr s =>
        by_cases hse : s = ""
        · subst hse
          refine ⟨dflt, ?_, hd⟩
          simp [pyTruthyPV, pyTruthy, getA_setA_same]
        · refine ⟨s, ?_, hse⟩
          simp [pyTruthyPV, pyTruthy, hse, hv]
      | jnull =>
        refine ⟨dflt, ?_, hd⟩
        simp [pyTruthyPV, pyTruthy, getA_setA_same]
      | jbool b =>
        have hb : b = false := by simpa [cbFieldOk, pyTruthy] using h
        subst hb
        refine ⟨dflt, ?_, hd⟩
        simp [pyTruthyPV, pyTruthy, getA_setA_same]
      | jnum q =>
        have hq : q = 0 := by simpa [cbFieldOk, pyTruthy] using h
        subst hq
        refine ⟨dflt, ?_, hd⟩
        simp [pyTruthyPV, pyTruthy, getA_setA_same]
      | jarr e =>
        have he : e = true := by simpa [cbFieldOk, pyTruthy] using h
        subst he
        refine ⟨dflt, ?_, hd⟩
        simp [pyTruthyPV, pyTruthy, getA_setA_same]
      | jobj e =>
        have he : e = true := by simpa [cbFieldOk, pyTruthy] using h
        subst he
        refine ⟨dflt, ?_, hd⟩
        simp [pyTruthyPV, pyTruthy, getA_setA_same]

lemma cbStep_other (m : List (String × PyVal)) (key dflt k : String)
    (hk : ¬ (k = key)) :
    getA (cbAssign m key dflt) k = getA m k := by
  unfold cbAssign
  split
  · rfl
  · exact getA_setA_ne m key k _ hk

lemma cbStep_cbFieldOk (m : List (String × PyVal)) (key dflt k : String)
    (hk : ¬ (k = key)) (h : cbFieldOk (getA m k) = true) :
    cbFieldOk (getA (cbAssign m key dflt) k) = true := by
  rw [cbStep_other m key dflt k hk]
  exact h

lemma applyDuration_spec (m : List (String × PyVal)) :
    (∃ f, getA (applyDuration m) ("instruction_duration") =
        some (PyVal.vfloat f) ∧ pfltLtZero f = false) ∧
    (∀ k, ¬ (k = "instruction_duration") → getA (applyDuration m) k = getA m k) := by
  have h10 : pfltLtZero (PFloat.fin 10) = false := by
    simp only [pfltLtZero]
    exact decide_eq_false (by norm_num)
  unfold applyDuration
  split
  · exact ⟨⟨PFloat.fin 10, getA_setA_same m ("instruction_duration") _, h10⟩,
      fun k hk => getA_setA_ne m ("instruction_duration") k _ hk⟩
  next f heq =>
    by_cases hlt : pfltLtZero f = true
    · rw [if_pos hlt]
      exact ⟨⟨PFloat.fin 10, getA_setA_same m ("instruction_duration") _, h10⟩,
        fun k hk => getA_setA_ne m ("instruction_duration") k _ hk⟩
    · have hf : pfltLtZero f = false := by simpa using hlt
      rw [if_neg (by simp [hf])]
      exact ⟨⟨f, getA_setA_same m ("instruction_duration") _, hf⟩,
        fun k hk => getA_setA_ne m ("instruction_duration") k _ hk⟩

lemma applyCB_spec (cs : String) (m : List (String × PyVal))
    (h1 : cbFieldOk (getA m ("checkerboard_image1")) = true)
    (h2 : cbFieldOk (getA m ("checkerboard_image2")) = true) :
    (∃ s, getA (applyCheckerboardDefaults cs m) ("checkerboard_image1") =
        some (PyVal.vjson (JVal.jstr s)) ∧ ¬ (s = "")) ∧
    (∃ s, getA (applyCheckerboardDefaults cs m) ("checkerboard_image2") =
        some (PyVal.vjson (JVal.jstr s)) ∧ ¬ (s = "")) ∧
    (∀ k, ¬ (k = "checkerboard_image1") → ¬ (k = "checkerboard_image2") →
      getA (applyCheckerboardDefaults cs m) k = getA m k) := by
  have hi1 : ¬ ((if cs = "black_white" then "acheck_bw.png" else "acheck_by.png") = "") := by
    split <;> simp
  have hi2 : ¬ ((if cs = "black_white" then "acheck_bw_.png" else "acheck_by_.png") = "") := by
    split <;> simp
  simp only [applyCheckerboardDefaults]
  refine ⟨?_, ?_, ?_⟩
  · rw [cbStep_other _ ("checkerboard_image2") _ ("checkerboard_image1") (by decide)]
    exact cbStep m ("checkerboard_image1") _ hi1 h1
  · exact cbStep (cbAssign m ("checkerboard_image1") _) ("checkerboard_image2") _ hi2
      (cbStep_cbFieldOk m ("checkerboard_image1") _ ("checkerboard_image2") (by decide) h2)
  · intro k hk1 hk2
    rw [cbStep_other _ ("checkerboard_image2") _ k hk2,
        cbStep_other m ("checkerboard_image1") _ k hk1]

lemma isSome_map_vjson (o : Option JVal) :
    (Option.map PyVal.vjson o).isSome = o.isSome := by
  cases o <;> rfl

lemma load_config_ok (src : ConfigSource)
    (hcs : strOrMissing (configMerged src) ("color_scheme") = true)
    (hsm : strOrMissing (configMerged src) ("start_mode") = true)
    (hcb1 : strOrFalsy (configMerged src) ("checkerboard_image1") = true)
    (hcb2 : strOrFalsy (configMerged src) ("checkerboard_image2") = true)
    (hkeys : ∀ k, (getA DEFAULT_CONFIG k).isSome = true →
      (getA (configMerged src) k).isSome = true) :
    ∃ m, load_config src = Except.ok m ∧ cfgPost m = true := by
  have hm0get : ∀ k, getA ((configMerged src).map (fun kv => (kv.1, PyVal.vjson kv.2))) k =
      (getA (configMerged src) k).map PyVal.vjson :=
    fun k => getA_map_vjson (configMerged src) k
  obtain ⟨s, hs⟩ := strOrMissing_strVal (configMerged src) ("color_scheme") hcs
    (hkeys ("color_scheme") (by decide))
  have hs0 : getA ((configMerged src).map (fun kv => (kv.1, PyVal.vjson kv.2)))
      ("color_scheme") = some (PyVal.vjson (JVal.jstr s)) := by
    rw [hm0get, hs]
    rfl
  obtain ⟨cs, m1, hacs, ⟨s1, hcs1, hmem1⟩, hoth1⟩ := applyColorScheme_ok _ s hs0
  have hcb1m : cbFieldOk (getA m1 ("checkerboard_image1")) = true := by
    rw [hoth1 _ (by decide), hm0get]
    exact strOrFalsy_cbFieldOk (configMerged src) _ hcb1
  have hcb2m : cbFieldOk (getA m1 ("checkerboard_image2")) = true := by
    rw [hoth1 _ (by decide), hm0get]
    exact strOrFalsy_cbFieldOk (configMerged src) _ hcb2
  obtain ⟨⟨sA, hA, hAne⟩, ⟨sB, hB, hBne⟩, hoth2⟩ := applyCB_spec cs m1 hcb1m hcb2m
  obtain ⟨t, ht⟩ := strOrMissing_strVal (configMerged src) ("start_mode") hsm
    (hkeys ("start_mode") (by decide))
  have ht2 : getA (applyCheckerboardDefaults cs m1) ("start_mode") =
      some (PyVal.vjson (JVal.jstr t)) := by
    rw [hoth2 _ (by decide) (by decide), hoth1 _ (by decide), hm0get, ht]
    rfl
  obtain ⟨m3, hasm, ⟨t1, ht1, htmem⟩, hoth3⟩ := applyStartMode_ok _ t ht2
  obtain ⟨⟨f, hf, hfnn⟩, hoth4⟩ := applyDuration_spec m3
  refine ⟨applyDuration m3, ?_, ?_⟩
  · simp only [load_config, hacs, hasm]
  · have e_sm : getA (applyDuration m3) ("start_mode") =
        some (PyVal.vjson (JVal.jstr t1)) := by
      rw [hoth4 _ (by decide)]
      exact ht1
    have e_cb1 : getA (applyDuration m3) ("checkerboard_image1") =
        some (PyVal.vjson (JVal.jstr sA)) := by
      rw [hoth4 _ (by decide), hoth3 _ (by decide)]
      exact hA
    have e_cb2 : getA (applyDuration m3) ("checkerboard_image2") =
        some (PyVal.vjson (JVal.jstr sB)) := by
      rw [hoth4 _ (by decide), hoth3 _ (by decide)]
      exact hB
    have e_cs : getA (applyDuration m3) ("color_scheme") =
        some (PyVal.vjson (JVal.jstr s1)) := by
      rw [hoth4 _ (by decide), hoth3 _ (by decide), hoth2 _ (by decide) (by decide)]
      exact hcs1
    have e_other : ∀ k, ¬ (k = "color_scheme") → ¬ (k = "start_mode") →
        ¬ (k = "checkerboard_image1") → ¬ (k = "checkerboard_image2") →
        ¬ (k = "instruction_duration") →
        getA (applyDuration m3) k = (getA (configMerged src) k).map PyVal.vjson := by
      intro k hk1 hk2 hk3 hk4 hk5
      rw [hoth4 _ hk5, hoth3 _ hk2, hoth2 _ hk3 hk4, hoth1 _ hk1, hm0get]
    unfold cfgPost
    rw [e_sm, e_cs, hf, e_cb1, e_cb2]
    simp only [Bool.and_eq_true]
    refine ⟨⟨⟨⟨⟨?_, ?_⟩, ?_⟩, ?_⟩, ?_⟩, ?_⟩
    · rw [List.all_eq_true]
      intro k hk
      fin_cases hk
      · rw [e_other _ (by decide) (by decide) (by decide) (by decide) (by decide)]
        rw [isSome_map_vjson]
        exact hkeys _ (by decide)
      · rw [e_sm]
        rfl
      · rw [e_cs]
        rfl
      · rw [e_other _ (by decide) (by decide) (by decide) (by decide) (by decide)]
        rw [isSome_map_vjson]
        exact hkeys _ (by decide)
      · rw [e_other _ (by decide) (by decide) (by decide) (by decide) (by decide)]
        rw [isSome_map_vjson]
        exact hkeys _ (by decide)
      · rw [e_other _ (by decide) (by decide) (by decide) (by decide) (by decide)]
        rw [isSome_map_vjson]
        exact hkeys _ (by decide)
      · rw [e_other _ (by decide) (by decide) (by decide) (by decide) (by decide)]
        rw [isSome_map_vjson]
        exact hkeys _ (by decide)
      · rw [e_cb1]
        rfl
      · rw [e_cb2]
        rfl
      · rw [e_other _ (by decide) (by decide) (by decide) (by decide) (by decide)]
        rw [isSome_map_vjson]
        exact hkeys _ (by decide)
      · rw [e_other _ (by decide) (by decide) (by decide) (by decide) (by decide)]
        rw [isSome_map_vjson]
        exact hkeys _ (by decide)
      · rw [hf]
        rfl
    · exact decide_eq_true htmem
    · exact decide_eq_true hmem1
    · simpa using hfnn
    · simpa using hAne
    · simpa using hBne

/-- C9 counterexample: a configuration file whose color_scheme field holds
the number 123 makes load_config raise (merged.get("color_scheme").lower()
is an AttributeError on a non-string, outside any try block), so load_config
does not return a configuration dict for every file content. -/
theorem c9_counterexample :
    load_config (ConfigSource.loaded [("color_scheme", JVal.jnum 123)]) =
      Except.error () := rfl

/-- C9 amended: load_config returns without raising — with every default
key present, start_mode and color_scheme valid up to the casing the file
supplied, instruction_duration a Python float d with d < 0 false (finite
non-negative, inf, or nan), and non-empty checkerboard file-name strings —
provided the file merge leaves color_scheme and start_mode as strings (or
absent) and the checkerboard fields as strings or falsy values (or absent);
outside these provisos load_config can raise AttributeError, keep a
non-string checkerboard value, keep the supplied casing, or store an
infinite or nan duration. -/
theorem c9_amended (src : ConfigSource) (hok : srcOk src = true) :
    ∃ m, load_config src = Except.ok m ∧ cfgPost m = true := by
  cases src with
  | missingFile =>
    exact load_config_ok ConfigSource.missingFile (by decide) (by decide) (by decide)
      (by decide) (fun k hk => hk)
  | unreadable =>
    exact load_config_ok ConfigSource.unreadable (by decide) (by decide) (by decide)
      (by decide) (fun k hk => hk)
  | loaded fields =>
    simp only [srcOk, Bool.and_eq_true] at hok
    obtain ⟨⟨⟨h1, h2⟩, h3⟩, h4⟩ := hok
    exact load_config_ok (ConfigSource.loaded fields) h1 h2 h3 h4
      (fun k hk => mergeCfg_isSome k hk fields)

/-- C9 amended witness: a concrete file setting start_mode to "TRIGGER" (a
string, valid up to case) and instruction_duration to the string "2.5"
satisfies the provisos, so load_config returns a dict meeting the
post-condition. -/
theorem c9_amended_witness :
    ∃ m, load_config (ConfigSource.loaded
        [("start_mode", JVal.jstr ("TRIGGER")),
         ("instruction_duration", JVal.jstr ("2.5"))]) = Except.ok m ∧
      cfgPost m = true :=
  c9_amended (ConfigSource.loaded
    [("start_mode", JVal.jstr ("TRIGGER")),
     ("instruction_duration", JVal.jstr ("2.5"))]) (by decide)
